import Mathlib

/-!
Verification of the Carrom Arena automation core.

This file gives a shallow embedding of the money- and event-handling core of
the repository and settles the frozen claims about it:

* `SimpleAutomation` (src/automation.ts): match creation, match settlement and
  the in-memory wallet/transaction log.
* `WalletProcessor` (src/WalletProcessor.ts): deposit/withdrawal processing,
  the manual-review path with its delayed auto-approval, and `stop()`.
* `EventProcessor` (src/WalletProcessor.ts, second module): the priority-ordered
  rule dispatcher.
* `GameProcessor` (src/GameProcessor.ts): the cancelled-match refund sweep.

Conventions of the embedding:

* JS `Map<string, T>` objects are modelled as total functions `String → T`
  (with the default the code supplies via `|| 0` / `get` returning
  `undefined`), JS arrays as Lean lists (with `push` appending at the end).
* JS numbers holding money amounts are modelled as `Int` (the code only ever
  adds, subtracts and compares integral rupee amounts); timestamps as `Nat`.
* `Date.now()` and random id generation are nondeterministic inputs, so they
  are passed as explicit parameters (`now`, fresh ids).
* Side-effecting closures (`console.log`, notifications, the simulated bank
  transfer) have no observable effect on the modelled state and are dropped.
-/

/-! ## SimpleAutomation (src/automation.ts) -/

/-- Pointwise update of a string-keyed map, modelling `Map.set`. -/
def strUpdate {α : Type} (f : String → α) (k : String) (v : α) : String → α :=
  fun x => if x = k then v else f x

/-- `WalletTransaction.type` in src/automation.ts. -/
inductive ATxType
  | deposit | withdrawal | bet | win | fee
deriving DecidableEq, Repr

/-- `WalletTransaction.status` in src/automation.ts. -/
inductive ATxStatus
  | pending | completed | failed
deriving DecidableEq, Repr

/-- `WalletTransaction` in src/automation.ts. -/
structure WalletTransaction where
  id : String
  userId : String
  type : ATxType
  amount : Int
  status : ATxStatus
  timestamp : Nat
deriving DecidableEq, Repr

/-- `MatchData.status` in src/automation.ts. -/
inductive AMatchStatus
  | pending | active | completed
deriving DecidableEq, Repr

/-- `MatchData` in src/automation.ts (`startTime`/`endTime` are never read by
the modelled operations and are omitted). -/
structure MatchData where
  id : String
  player1 : String
  player2 : String
  betAmount : Int
  winner : Option String
  status : AMatchStatus
deriving DecidableEq, Repr

/-- The mutable state of the `SimpleAutomation` singleton:
`matchesMap : Map<string, MatchData>`, `wallets : Map<string, number>`,
`transactions : WalletTransaction[]`.  A missing wallet key reads as `0`
(`this.wallets.get(userId) || 0`), so `wallets` is a total function. -/
structure AutomationState where
  matchesMap : String → Option MatchData
  wallets : String → Int
  transactions : List WalletTransaction

/-- `getWalletBalance` in src/automation.ts. -/
def getWalletBalance (s : AutomationState) (userId : String) : Int :=
  s.wallets userId

/-- `creditToWallet` in src/automation.ts. -/
def creditToWallet (s : AutomationState) (userId : String) (amount : Int) :
    AutomationState :=
  let currentBalance := getWalletBalance s userId
  { s with wallets := strUpdate s.wallets userId (currentBalance + amount) }

/-- `deductFromWallet` in src/automation.ts: deducts only when
`currentBalance >= amount`, otherwise leaves the state unchanged and
returns `false`. -/
def deductFromWallet (s : AutomationState) (userId : String) (amount : Int) :
    AutomationState × Bool :=
  let currentBalance := getWalletBalance s userId
  if currentBalance ≥ amount then
    ({ s with wallets := strUpdate s.wallets userId (currentBalance - amount) },
     true)
  else
    (s, false)

/-- `logTransaction` in src/automation.ts (`Array.push`). -/
def logTransaction (s : AutomationState) (t : WalletTransaction) :
    AutomationState :=
  { s with transactions := s.transactions ++ [t] }

/-- `createMatch` in src/automation.ts.  The generated
`match_${Date.now()}_${random}` id is a nondeterministic input and is passed as
the `matchId` parameter.  The match is stored unconditionally; the two bet
deductions are attempted afterwards and their boolean results are discarded by
the source. -/
def createMatch (s : AutomationState) (matchId player1 player2 : String)
    (betAmount : Int) : AutomationState × String :=
  let md : MatchData :=
    { id := matchId, player1 := player1, player2 := player2
      betAmount := betAmount, winner := none, status := AMatchStatus.pending }
  let s1 := { s with matchesMap := strUpdate s.matchesMap matchId (some md) }
  let s2 := (deductFromWallet s1 player1 betAmount).1
  let s3 := (deductFromWallet s2 player2 betAmount).1
  (s3, matchId)

/-- `completeMatch` in src/automation.ts.  `Date.now()` is passed as `now`.
The payout constants are the source literals `winnerPayout = 16`,
`serverFee = 4`; the fee account is the literal `'developer'` wallet. -/
def completeMatch (s : AutomationState) (matchId winnerId : String)
    (now : Nat) : AutomationState :=
  match s.matchesMap matchId with
  | none => s
  | some md =>
    let md1 := { md with winner := some winnerId
                         status := AMatchStatus.completed }
    let s1 := { s with matchesMap := strUpdate s.matchesMap matchId (some md1) }
    let winnerPayout : Int := 16
    let serverFee : Int := 4
    let s2 := creditToWallet s1 winnerId winnerPayout
    let s3 := creditToWallet s2 "developer" serverFee
    let s4 := logTransaction s3
      { id := "win_" ++ matchId, userId := winnerId, type := ATxType.win
        amount := winnerPayout, status := ATxStatus.completed, timestamp := now }
    let s5 := logTransaction s4
      { id := "fee_" ++ matchId, userId := "developer", type := ATxType.fee
        amount := serverFee, status := ATxStatus.completed, timestamp := now }
    s5

/-- `getTransactionHistory` in src/automation.ts: filter by user, then sort
newest first.  ES2019 `Array.sort` is stable; `insertionSort` with the
total preorder `b.timestamp ≤ a.timestamp` is a stable descending sort. -/
def getTransactionHistory (s : AutomationState) (userId : String) :
    List WalletTransaction :=
  List.insertionSort (fun a b => b.timestamp ≤ a.timestamp)
    (s.transactions.filter (fun t => t.userId == userId))

/-- Observation used to state the conservation claim: the signed sum of the
amounts of the completed transactions the ledger holds for a given match.
`WalletTransaction` has no `matchId` field; the source ties a transaction to
its match through the generated ids `win_${matchId}`, `fee_${matchId}` (and a
bet entry, were one ever logged, would follow the same `bet_${matchId}`
convention). -/
def matchLedgerSum (s : AutomationState) (matchId : String) : Int :=
  ((s.transactions.filter (fun t =>
      t.status == ATxStatus.completed &&
        (t.id == "win_" ++ matchId || t.id == "fee_" ++ matchId ||
         t.id == "bet_" ++ matchId))).map (fun t => t.amount)).sum

/-- A concrete starting state: two funded players, empty ledger. -/
def exAutoState : AutomationState :=
  { matchesMap := fun _ => none
    wallets := fun u => if u = "p1" then 100 else if u = "p2" then 100 else 0
    transactions := [] }

/-- State after `createMatch(p1, p2, 10)` followed by
`completeMatch(m1, p1)` from `exAutoState`. -/
def exCompleted1 : AutomationState :=
  completeMatch (createMatch exAutoState "m1" "p1" "p2" 10).1 "m1" "p1" 5

/-- State after a second `completeMatch(m1, p1)` call on `exCompleted1`. -/
def exCompleted2 : AutomationState :=
  completeMatch exCompleted1 "m1" "p1" 6

/-- A starting state where `p1` cannot cover the bet. -/
def exPoorState : AutomationState :=
  { matchesMap := fun _ => none
    wallets := fun u => if u = "p1" then 5 else if u = "p2" then 100 else 0
    transactions := [] }

/-! ## WalletProcessor (src/WalletProcessor.ts)

The processor's periodic tasks (`setInterval`) are modelled as explicit tick
functions; each tick drains its pending queue exactly as the source does
(copy the array, reset it, process each item in order).  The payment-gateway
outcome (`Math.random() > 0.05`) is a nondeterministic input and is passed per
item.  The one-shot `setTimeout` scheduled by `queueForManualReview` is
modelled by recording the withdrawal id in `reviewTimeouts`; firing it is the
`fireReviewTimeout` transition.  Crucially, and faithfully to the source,
these ids are never entered in the `intervals` registry that `stop()` clears.
-/

/-- The `WalletConfig` record in src/WalletProcessor.ts. -/
structure WalletConfig where
  minDeposit : Int
  maxDeposit : Int
  minWithdrawal : Int
  maxWithdrawal : Int
  processingDelay : Nat
  autoApprovalLimit : Int
  developerWalletId : String

/-- The constructor's configuration literals. -/
def walletConfig : WalletConfig :=
  { minDeposit := 10, maxDeposit := 2000, minWithdrawal := 10
    maxWithdrawal := 2000, processingDelay := 5000, autoApprovalLimit := 500
    developerWalletId := "dev_wallet_main" }

/-- Transaction types handled by the wallet processor. -/
inductive WTxType
  | deposit | withdrawal | server_fee
deriving DecidableEq, Repr

/-- Transaction statuses in the wallet processor (`review` is the
manual-review holding status for large withdrawals). -/
inductive WTxStatus
  | pending | completed | failed | review
deriving DecidableEq, Repr

/-- The `Transaction` shape the wallet processor reads and writes (fields it
never consults, such as `paymentMethod`/`bankDetails`/`metadata`, are
omitted). -/
structure WTransaction where
  id : String
  playerId : String
  type : WTxType
  amount : Int
  status : WTxStatus
  timestamp : Nat
  retryCount : Nat
  completedAt : Option Nat
  error : Option String
deriving DecidableEq, Repr

/-- `WalletState` plus the processor's timer bookkeeping (`intervals`,
`isRunning`) and the scheduled one-shot review timeouts.  `transactions` is
the `Map<string, Transaction>` keyed by transaction id. -/
structure WPState where
  transactions : String → Option WTransaction
  playerBalances : String → Int
  pendingDeposits : List WTransaction
  pendingWithdrawals : List WTransaction
  developerBalance : Int
  totalVolume : Int
  reviewTimeouts : List String
  intervals : List String
  isRunning : Bool

/-- The state built by the `WalletProcessor` constructor (after
`startAutomatedWalletProcessing` registered the six interval tasks). -/
def initialWPState : WPState :=
  { transactions := fun _ => none
    playerBalances := fun _ => 0
    pendingDeposits := []
    pendingWithdrawals := []
    developerBalance := 10000
    totalVolume := 0
    reviewTimeouts := []
    intervals := ["deposits", "withdrawals", "balance", "validation", "fees",
                  "cleanup"]
    isRunning := true }

/-- `failTransaction` in src/WalletProcessor.ts. -/
def failTransaction (s : WPState) (t : WTransaction) (reason : String)
    (now : Nat) : WPState :=
  let t1 := { t with status := WTxStatus.failed, error := some reason
                     completedAt := some now }
  { s with transactions := strUpdate s.transactions t.id (some t1) }

/-- `approveDeposit` in src/WalletProcessor.ts: credit the balance, mark the
transaction completed, store it, bump `totalVolume`. -/
def approveDeposit (s : WPState) (d : WTransaction) (now : Nat) : WPState :=
  let currentBalance := s.playerBalances d.playerId
  let d1 := { d with status := WTxStatus.completed, completedAt := some now }
  { s with
    playerBalances :=
      strUpdate s.playerBalances d.playerId (currentBalance + d.amount)
    transactions := strUpdate s.transactions d.id (some d1)
    totalVolume := s.totalVolume + d.amount }

/-- `processDepositTransaction` in src/WalletProcessor.ts.  `gatewayOk` is the
outcome of the simulated payment gateway (`Math.random() > 0.05`). -/
def processDepositTransaction (cfg : WalletConfig) (s : WPState)
    (d : WTransaction) (gatewayOk : Bool) (now : Nat) : WPState :=
  if d.amount < cfg.minDeposit ∨ d.amount > cfg.maxDeposit then
    failTransaction s d "Invalid amount" now
  else if gatewayOk then
    approveDeposit s d now
  else
    failTransaction s d "Payment gateway failed" now

/-- `approveWithdrawal` in src/WalletProcessor.ts: the amount is added to the
balance unconditionally (the source comments that `withdrawal.amount` is
negative), the transaction is marked completed and stored. -/
def approveWithdrawal (s : WPState) (w : WTransaction) (now : Nat) : WPState :=
  let currentBalance := s.playerBalances w.playerId
  let w1 := { w with status := WTxStatus.completed, completedAt := some now }
  { s with
    playerBalances :=
      strUpdate s.playerBalances w.playerId (currentBalance + w.amount)
    transactions := strUpdate s.transactions w.id (some w1)
    totalVolume := s.totalVolume + (w.amount.natAbs : Int) }

/-- `queueForManualReview` in src/WalletProcessor.ts: mark the transaction
`review`, store it, and schedule the 30-second auto-approval `setTimeout`.
The timeout handle is NOT registered in `intervals`; the model records it in
`reviewTimeouts`. -/
def queueForManualReview (s : WPState) (w : WTransaction) : WPState :=
  let w1 := { w with status := WTxStatus.review }
  { s with
    transactions := strUpdate s.transactions w.id (some w1)
    reviewTimeouts := s.reviewTimeouts ++ [w.id] }

/-- `processWithdrawalTransaction` in src/WalletProcessor.ts.  Note the
source's validation compares the SIGNED amount (negative for a withdrawal
queued through `processWithdrawal`) against the positive configured bounds. -/
def processWithdrawalTransaction (cfg : WalletConfig) (s : WPState)
    (w : WTransaction) (now : Nat) : WPState :=
  if w.amount < cfg.minWithdrawal ∨ w.amount > cfg.maxWithdrawal then
    failTransaction s w "Invalid amount" now
  else if s.playerBalances w.playerId < (w.amount.natAbs : Int) then
    failTransaction s w "Insufficient balance" now
  else if (w.amount.natAbs : Int) ≤ cfg.autoApprovalLimit then
    approveWithdrawal s w now
  else
    queueForManualReview s w

/-- `processDeposit` in src/WalletProcessor.ts: build a pending deposit
transaction (fresh id passed in) and push it on `pendingDeposits`. -/
def enqueueDeposit (s : WPState) (id playerId : String) (amount : Int)
    (ts : Nat) : WPState :=
  let d : WTransaction :=
    { id := id, playerId := playerId, type := WTxType.deposit
      amount := amount, status := WTxStatus.pending, timestamp := ts
      retryCount := 0, completedAt := none, error := none }
  { s with pendingDeposits := s.pendingDeposits ++ [d] }

/-- `processWithdrawal` in src/WalletProcessor.ts: the stored amount is the
NEGATION of the requested amount (`amount: -amount`). -/
def enqueueWithdrawal (s : WPState) (id playerId : String) (amount : Int)
    (ts : Nat) : WPState :=
  let w : WTransaction :=
    { id := id, playerId := playerId, type := WTxType.withdrawal
      amount := -amount, status := WTxStatus.pending, timestamp := ts
      retryCount := 0, completedAt := none, error := none }
  { s with pendingWithdrawals := s.pendingWithdrawals ++ [w] }

/-- Sequential processing of a drained deposit batch (the `forEach` body of
`processAutomaticDeposits`), with one gateway outcome per item. -/
def runDeposits (cfg : WalletConfig) :
    List (WTransaction × Bool) → WPState → Nat → WPState
  | [], s, _ => s
  | (d, g) :: rest, s, now =>
    runDeposits cfg rest (processDepositTransaction cfg s d g now) now

/-- `processAutomaticDeposits` in src/WalletProcessor.ts: copy the pending
queue, reset it, process each deposit in order.  `gw i` is the gateway
outcome for the `i`-th drained deposit. -/
def processAutomaticDeposits (cfg : WalletConfig) (s : WPState)
    (gw : Nat → Bool) (now : Nat) : WPState :=
  runDeposits cfg
    ((s.pendingDeposits.enum).map (fun p => (p.2, gw p.1)))
    { s with pendingDeposits := [] } now

/-- Sequential processing of a drained withdrawal batch (the `forEach` body
of `processAutomaticWithdrawals`). -/
def runWithdrawals (cfg : WalletConfig) :
    List WTransaction → WPState → Nat → WPState
  | [], s, _ => s
  | w :: rest, s, now =>
    runWithdrawals cfg rest (processWithdrawalTransaction cfg s w now) now

/-- `processAutomaticWithdrawals` in src/WalletProcessor.ts. -/
def processAutomaticWithdrawals (cfg : WalletConfig) (s : WPState)
    (now : Nat) : WPState :=
  runWithdrawals cfg s.pendingWithdrawals
    { s with pendingWithdrawals := [] } now

/-- The body of the `setTimeout` scheduled by `queueForManualReview`: if the
withdrawal is still in `review` status, approve it — with NO re-check of the
player's balance.  The timeout fires whether or not `stop()` has run, because
its handle was never stored in `intervals`. -/
def fireReviewTimeout (s : WPState) (id : String) (now : Nat) : WPState :=
  if id ∈ s.reviewTimeouts then
    let s1 := { s with reviewTimeouts := s.reviewTimeouts.erase id }
    match s1.transactions id with
    | some w =>
      if w.status = WTxStatus.review then approveWithdrawal s1 w now else s1
    | none => s1
  else s

/-- `stop()` in src/WalletProcessor.ts: clear every registered interval.
Pending `setTimeout` handles (review auto-approvals) are untouched because
they were never put in `intervals`. -/
def wpStop (s : WPState) : WPState :=
  { s with isRunning := false, intervals := [] }

/-- The reachable states of the wallet processor: the public enqueue
operations, the periodic processing ticks, the firing of a scheduled review
timeout, and `stop()`. -/
inductive WPReachable (cfg : WalletConfig) : WPState → Prop
  | init : WPReachable cfg initialWPState
  | enqDeposit {s} (id playerId : String) (amount : Int) (ts : Nat) :
      WPReachable cfg s → WPReachable cfg (enqueueDeposit s id playerId amount ts)
  | enqWithdrawal {s} (id playerId : String) (amount : Int) (ts : Nat) :
      WPReachable cfg s → WPReachable cfg (enqueueWithdrawal s id playerId amount ts)
  | depTick {s} (gw : Nat → Bool) (now : Nat) :
      WPReachable cfg s → WPReachable cfg (processAutomaticDeposits cfg s gw now)
  | wdTick {s} (now : Nat) :
      WPReachable cfg s → WPReachable cfg (processAutomaticWithdrawals cfg s now)
  | reviewFire {s} (id : String) (now : Nat) :
      WPReachable cfg s → WPReachable cfg (fireReviewTimeout s id now)
  | stopStep {s} :
      WPReachable cfg s → WPReachable cfg (wpStop s)

/-- The invariant carried through `WPReachable`: balances are non-negative,
and every transaction held in `review` status passed the amount validation
(so its amount is at least `minWithdrawal`). -/
def WPInv (cfg : WalletConfig) (s : WPState) : Prop :=
  (∀ p, 0 ≤ s.playerBalances p) ∧
  (∀ id w, s.transactions id = some w → w.status = WTxStatus.review →
    cfg.minWithdrawal ≤ w.amount)

/-- The deposit transaction used in the idempotency scenario. -/
def exDeposit : WTransaction :=
  { id := "dep1", playerId := "alice", type := WTxType.deposit, amount := 100
    status := WTxStatus.pending, timestamp := 0, retryCount := 0
    completedAt := none, error := none }

/-- State after processing `exDeposit` once (gateway success). -/
def exDepOnce : WPState :=
  processDepositTransaction walletConfig initialWPState exDeposit true 1

/-- State after processing the SAME deposit transaction a second time. -/
def exDepTwice : WPState :=
  processDepositTransaction walletConfig exDepOnce exDeposit true 2

/-- Review-path scenario: fund alice with 600, then queue a withdrawal whose
stored amount is `600` (the caller passes `-600`, which the source negates),
so that it passes validation, exceeds the 500 auto-approval limit, and is
placed in review with a scheduled auto-approval timeout. -/
def exReviewState : WPState :=
  processAutomaticWithdrawals walletConfig
    (enqueueWithdrawal
      (processAutomaticDeposits walletConfig
        (enqueueDeposit initialWPState "d1" "alice" 600 0) (fun _ => true) 1)
      "w1" "alice" (-600) 2) 3

/-- `exReviewState` after `stop()`. -/
def exStopped : WPState := wpStop exReviewState

/-- `exStopped` after the (uncancelled) review timeout fires. -/
def exFiredAfterStop : WPState := fireReviewTimeout exStopped "w1" 10

/-- The review-status withdrawal record held in `exReviewState`. -/
def exReviewTx : WTransaction :=
  { id := "w1", playerId := "alice", type := WTxType.withdrawal, amount := 600
    status := WTxStatus.review, timestamp := 2, retryCount := 0
    completedAt := none, error := none }

/-! ## EventProcessor (src/WalletProcessor.ts, second module)

Only the dispatch logic of `processEvent` is modelled: the registry is the
`rules` array in registration order (`addRule` pushes), and for an event the
matching rules are filtered and sorted descending by priority.  ES2019
`Array.prototype.sort` is stable, so on the registration-indexed list the
result is exactly the sort by the total preorder "higher priority first,
ties by lower registration index first".  The rules' `action` closures are
side-effecting and are represented by an opaque numeric handler tag; `forEach`
runs the sorted list sequentially, so the list order IS the execution order
and each action completes before the next begins. -/

/-- `GameEvent` in src/WalletProcessor.ts (`data` payload is opaque to the
dispatcher and omitted). -/
structure GameEvent where
  id : String
  type : String
  playerId : String
  matchId : String
  timestamp : Nat
  processed : Bool

/-- `EventRule` in src/WalletProcessor.ts; `action` is an opaque handler
tag standing for the side-effecting closure. -/
structure EventRule where
  eventType : String
  condition : GameEvent → Bool
  action : Nat
  priority : Int

/-- A rule matches an event when its `eventType` equals the event's type or
is the wildcard `"*"`, and its `condition` accepts the event (the two
`filter` calls of `processEvent`). -/
def ruleApplies (r : EventRule) (e : GameEvent) : Bool :=
  (r.eventType == e.type || r.eventType == "*") && r.condition e

/-- Dispatch order on registration-indexed rules: `a` runs no later than `b`
iff `a` has strictly higher priority, or equal priority and an earlier (or
equal) registration index.  This is the total preorder computed by the
stable `sort((a, b) => b.priority - a.priority)`. -/
def dispLE (a b : Nat × EventRule) : Prop :=
  b.2.priority < a.2.priority ∨ (a.2.priority = b.2.priority ∧ a.1 ≤ b.1)

instance : DecidableRel dispLE := fun a b =>
  inferInstanceAs (Decidable
    (b.2.priority < a.2.priority ∨ (a.2.priority = b.2.priority ∧ a.1 ≤ b.1)))

instance : IsTotal (Nat × EventRule) dispLE :=
  ⟨by intro a b; unfold dispLE; omega⟩

instance : IsTrans (Nat × EventRule) dispLE :=
  ⟨by intro a b c; unfold dispLE; omega⟩

/-- The matching-rule list of `processEvent`, paired with registration
indices: filter the registry by event type and condition, then stable-sort
descending by priority. -/
def matchingRules (rules : List EventRule) (e : GameEvent) :
    List (Nat × EventRule) :=
  List.insertionSort dispLE
    ((rules.enum).filter (fun p => ruleApplies p.2 e))

/-- The sequence of handler tags `processEvent` executes for an event, in
execution order (`matchingRules.forEach(rule => rule.action(event))`). -/
def executionOrder (rules : List EventRule) (e : GameEvent) : List Nat :=
  (matchingRules rules e).map (fun p => p.2.action)

/-! ## GameProcessor (src/GameProcessor.ts) -/

/-- The player record as mutated by the game processor's financial sweeps.
The `Player` objects held inside a `Match` are the ones the refund credits. -/
structure GPlayer where
  id : String
  walletBalance : Int
deriving DecidableEq, Repr

/-- Match lifecycle states in src/GameProcessor.ts. -/
inductive GMatchStatus
  | waiting | active | finishing | completed | cancelled
deriving DecidableEq, Repr

/-- Transaction types created by the game processor. -/
inductive GTxType
  | deposit | withdrawal | bet | win | refund
deriving DecidableEq, Repr

/-- Transaction statuses in src/GameProcessor.ts. -/
inductive GTxStatus
  | pending | completed | failed
deriving DecidableEq, Repr

/-- The transaction record `createTransaction` pushes. -/
structure GTransaction where
  id : String
  playerId : String
  type : GTxType
  amount : Int
  status : GTxStatus
  matchId : String
  timestamp : Nat
deriving DecidableEq, Repr

/-- `Match` as used by the cancelled-match sweep. -/
structure GMatch where
  id : String
  players : List GPlayer
  status : GMatchStatus
  createdAt : Nat
  endTime : Option Nat
  betAmount : Int
deriving DecidableEq, Repr

/-- The `ProcessorConfig` fields used by the refund path. -/
structure GPConfig where
  matchDuration : Nat
  betAmount : Int
  winnerPayout : Int
  serverFee : Int
deriving Repr

/-- The constructor's configuration literals in src/GameProcessor.ts. -/
def gpConfig : GPConfig :=
  { matchDuration := 60000, betAmount := 10, winnerPayout := 16, serverFee := 4 }

/-- The refund transaction `processAutomaticRefund` creates for one player
(`refund_${match.id}_${player.id}_${Date.now()}`). -/
def refundTx (cfg : GPConfig) (m : GMatch) (p : GPlayer) (now : Nat) :
    GTransaction :=
  { id := "refund_" ++ m.id ++ "_" ++ p.id ++ "_" ++ toString now
    playerId := p.id, type := GTxType.refund, amount := cfg.betAmount
    status := GTxStatus.completed, matchId := m.id, timestamp := now }

/-- `processAutomaticRefund` in src/GameProcessor.ts: credit `betAmount` to
every player of the match and push one completed refund transaction per
player.  The source's `forEach` interleaves the credit and the push per
player; since each player's credit is independent, the result equals mapping
the credits and appending the per-player transactions in the same order. -/
def processAutomaticRefund (cfg : GPConfig) (m : GMatch)
    (txs : List GTransaction) (now : Nat) : GMatch × List GTransaction :=
  ({ m with players :=
      m.players.map (fun p =>
        { p with walletBalance := p.walletBalance + cfg.betAmount }) },
   txs ++ m.players.map (fun p => refundTx cfg m p now))

/-- `processCancelledMatch` in src/GameProcessor.ts: refund FIRST (on every
sweep), then evict the match when `now - endTime > 1800000` (30 minutes).
`none` in the first component models deletion from the match map by
`cleanupMatch`.  (JS computes a negative difference when `now < endTime`,
which also fails the `> 1800000` test, matching `Nat` truncated
subtraction.) -/
def processCancelledMatch (cfg : GPConfig) (m : GMatch)
    (txs : List GTransaction) (now : Nat) :
    Option GMatch × List GTransaction :=
  let r := processAutomaticRefund cfg m txs now
  match m.endTime with
  | some e => if now - e > 1800000 then (none, r.2) else (some r.1, r.2)
  | none => (some r.1, r.2)

/-- A concrete cancelled two-player match. -/
def exCancelledMatch : GMatch :=
  { id := "gm1"
    players := [{ id := "a", walletBalance := 90 },
                { id := "b", walletBalance := 90 }]
    status := GMatchStatus.cancelled, createdAt := 0, endTime := some 1000
    betAmount := 10 }

/-! ## Helper lemmas -/

theorem strUpdate_same {α : Type} (f : String → α) (k : String) (v : α) :
    strUpdate f k v k = v := by
  simp [strUpdate]

theorem strUpdate_ne {α : Type} (f : String → α) (k : String) (v : α)
    (x : String) (h : x ≠ k) : strUpdate f k v x = f x := by
  simp [strUpdate, h]

/-- Full effect of `completeMatch` on an existing match: the winner id is
credited 16 and the `'developer'` wallet 4, all other wallets are untouched,
the match is overwritten as completed, and exactly the `win_`/`fee_`
transactions are appended. -/
theorem completeMatch_effect (s : AutomationState) (md : MatchData)
    (matchId winnerId : String) (now : Nat)
    (h : s.matchesMap matchId = some md) (hw : winnerId ≠ "developer") :
    (completeMatch s matchId winnerId now).wallets winnerId
        = s.wallets winnerId + 16
    ∧ (completeMatch s matchId winnerId now).wallets "developer"
        = s.wallets "developer" + 4
    ∧ (∀ u, u ≠ winnerId → u ≠ "developer" →
        (completeMatch s matchId winnerId now).wallets u = s.wallets u)
    ∧ (completeMatch s matchId winnerId now).matchesMap matchId
        = some { md with winner := some winnerId
                         status := AMatchStatus.completed }
    ∧ (completeMatch s matchId winnerId now).transactions
        = s.transactions
          ++ [{ id := "win_" ++ matchId, userId := winnerId,
                type := ATxType.win, amount := 16,
                status := ATxStatus.completed, timestamp := now },
              { id := "fee_" ++ matchId, userId := "developer",
                type := ATxType.fee, amount := 4,
                status := ATxStatus.completed, timestamp := now }] := by
  refine ⟨?_, ?_, ?_, ?_, ?_⟩ <;>
    simp only [completeMatch, h, creditToWallet, logTransaction,
      getWalletBalance, strUpdate]
  · simp [hw]
  · simp [Ne.symm hw]
  · intro u hu1 hu2
    simp [hu1, hu2]
  · simp
  · simp

/-- Effect of `createMatch` when both players can cover the bet: the match is
stored, both balances drop by `betAmount`, other wallets and the transaction
log are untouched. -/
theorem createMatch_effect (s : AutomationState) (matchId p1 p2 : String)
    (bet : Int) (h12 : p1 ≠ p2)
    (h1 : bet ≤ s.wallets p1) (h2 : bet ≤ s.wallets p2) :
    (createMatch s matchId p1 p2 bet).1.wallets p1 = s.wallets p1 - bet
    ∧ (createMatch s matchId p1 p2 bet).1.wallets p2 = s.wallets p2 - bet
    ∧ (∀ u, u ≠ p1 → u ≠ p2 →
        (createMatch s matchId p1 p2 bet).1.wallets u = s.wallets u)
    ∧ (createMatch s matchId p1 p2 bet).1.matchesMap matchId
        = some { id := matchId, player1 := p1, player2 := p2
                 betAmount := bet, winner := none
                 status := AMatchStatus.pending }
    ∧ (createMatch s matchId p1 p2 bet).1.transactions = s.transactions := by
  refine ⟨?_, ?_, ?_, ?_, ?_⟩
  · simp [createMatch, deductFromWallet, getWalletBalance, strUpdate,
      h12, Ne.symm h12, h1, h2]
  · simp [createMatch, deductFromWallet, getWalletBalance, strUpdate,
      h12, Ne.symm h12, h1, h2]
  · intro u hu1 hu2
    simp [createMatch, deductFromWallet, getWalletBalance, strUpdate,
      h12, Ne.symm h12, h1, h2, hu1, hu2]
  · simp [createMatch, deductFromWallet, getWalletBalance, strUpdate,
      h12, Ne.symm h12, h1, h2]
  · simp [createMatch, deductFromWallet, getWalletBalance, strUpdate,
      h12, Ne.symm h12, h1, h2]

/-! ## Claim C1 — conservation of the per-match ledger sum -/

/-- Claim C1, counterexample: from a fresh state with two funded players,
`createMatch(p1, p2, 10)` followed by `completeMatch(m1, p1)` leaves the
completed match `m1` with a ledger sum of `16 + 4 = 20`, not `0`: the two bet
deductions were applied to the wallets without any ledger entry, so the
claimed conservation equation fails on the code. -/
theorem conservation_counterexample :
    matchLedgerSum exCompleted1 "m1" ≠ 0 := by decide

/-- Claim C1 (amended): for a completed match the signed sum of its completed
ledger transactions equals `winnerPayout + serverFee = 20`, not `0`, because
`createMatch` deducts the bets without logging them.  Money is conserved at
the wallet level only for the default bet: the total balance change across
the three affected wallets over a create/complete cycle is `20 - 2*betAmount`,
which is `0` exactly when `betAmount = 10` (the source default satisfying
`2×betAmount == winnerPayout + serverFee`). -/
theorem conservation_amended :
    ∀ (s : AutomationState) (matchId p1 p2 : String) (bet : Int) (now : Nat),
    p1 ≠ p2 → p1 ≠ "developer" → p2 ≠ "developer" →
    bet ≤ s.wallets p1 → bet ≤ s.wallets p2 →
    (∀ t ∈ s.transactions,
      t.id ≠ "win_" ++ matchId ∧ t.id ≠ "fee_" ++ matchId ∧
        t.id ≠ "bet_" ++ matchId) →
    matchLedgerSum
        (completeMatch (createMatch s matchId p1 p2 bet).1 matchId p1 now)
        matchId = 20
    ∧ ((completeMatch (createMatch s matchId p1 p2 bet).1 matchId p1
          now).wallets p1
        + (completeMatch (createMatch s matchId p1 p2 bet).1 matchId p1
            now).wallets p2
        + (completeMatch (createMatch s matchId p1 p2 bet).1 matchId p1
            now).wallets "developer"
        = s.wallets p1 + s.wallets p2 + s.wallets "developer"
          + (20 - 2 * bet))
    ∧ (20 - 2 * bet = 0 ↔ bet = 10) := by
  intro s matchId p1 p2 bet now h12 h1d h2d h1 h2 hfresh
  obtain ⟨hc1, hc2, hc3, hc4, hc5⟩ :=
    createMatch_effect s matchId p1 p2 bet h12 h1 h2
  obtain ⟨he1, he2, he3, he4, he5⟩ :=
    completeMatch_effect (createMatch s matchId p1 p2 bet).1 _ matchId p1 now
      hc4 h1d
  refine ⟨?_, ?_, by omega⟩
  · unfold matchLedgerSum
    rw [he5, hc5, List.filter_append]
    have hnil : s.transactions.filter (fun t =>
        t.status == ATxStatus.completed &&
          (t.id == "win_" ++ matchId || t.id == "fee_" ++ matchId ||
           t.id == "bet_" ++ matchId)) = [] := by
      rw [List.filter_eq_nil_iff]
      intro t ht
      obtain ⟨hw, hf, hb⟩ := hfresh t ht
      simp [hw, hf, hb]
    rw [hnil]
    simp
  · have hp2 : (completeMatch (createMatch s matchId p1 p2 bet).1 matchId p1
        now).wallets p2 = (createMatch s matchId p1 p2 bet).1.wallets p2 :=
      he3 p2 (Ne.symm h12) h2d
    have hdev : (createMatch s matchId p1 p2 bet).1.wallets "developer"
        = s.wallets "developer" :=
      hc3 "developer" (Ne.symm h1d) (Ne.symm h2d)
    rw [he1, he2, hp2, hc1, hc2, hdev]
    ring

/-- Claim C1 (amended), witness at the spec's own scenario. -/
theorem conservation_amended_witness :
    matchLedgerSum exCompleted1 "m1" = 20
    ∧ (20 - 2 * (10 : Int) = 0 ↔ (10 : Int) = 10) :=
  ⟨(conservation_amended exAutoState "m1" "p1" "p2" 10 5 (by decide)
      (by decide) (by decide) (by decide) (by decide)
      (by simp [exAutoState])).1,
   (conservation_amended exAutoState "m1" "p1" "p2" 10 5 (by decide)
      (by decide) (by decide) (by decide) (by decide)
      (by simp [exAutoState])).2.2⟩

/-! ## Claim C2 — double settlement -/

/-- Claim C2, counterexample: after the spec's own scenario (balances 100,
bet 10, `completeMatch(m1, p1)` bringing `p1` to 106), a second
`completeMatch` with the same `matchId` changes the winner's balance again
(to 122), refuting that the second call is a no-op leaving balances
unchanged. -/
theorem settlement_counterexample :
    exCompleted2.wallets "p1" ≠ exCompleted1.wallets "p1" := by decide

/-- Claim C2 (amended): `completeMatch` applies the settlement effects on
EVERY call for an existing `matchId` — it performs no duplicate check, so a
second call credits the winner another 16 and the developer another 4 and
appends two more transactions; only an unknown `matchId` makes the call a
no-op (and no error value exists: the source returns `void`). -/
theorem settlement_amended :
    ∀ (s : AutomationState) (matchId w : String) (n1 n2 : Nat)
      (md : MatchData),
    s.matchesMap matchId = some md → w ≠ "developer" →
    (completeMatch s matchId w n1).wallets w = s.wallets w + 16
    ∧ (completeMatch (completeMatch s matchId w n1) matchId w n2).wallets w
        = s.wallets w + 32
    ∧ (completeMatch (completeMatch s matchId w n1) matchId w
          n2).wallets "developer"
        = s.wallets "developer" + 8
    ∧ (completeMatch (completeMatch s matchId w n1) matchId w
          n2).transactions.length
        = s.transactions.length + 4
    ∧ (∀ (s3 : AutomationState) (mid2 : String),
        s3.matchesMap mid2 = none → completeMatch s3 mid2 w n2 = s3) := by
  intro s matchId w n1 n2 md h hw
  obtain ⟨ha1, ha2, ha3, ha4, ha5⟩ :=
    completeMatch_effect s md matchId w n1 h hw
  obtain ⟨hb1, hb2, hb3, hb4, hb5⟩ :=
    completeMatch_effect (completeMatch s matchId w n1) _ matchId w n2 ha4 hw
  refine ⟨ha1, ?_, ?_, ?_, ?_⟩
  · rw [hb1, ha1]; ring
  · rw [hb2, ha2]; ring
  · rw [hb5, ha5]; simp
  · intro s3 mid2 h3
    simp [completeMatch, h3]

/-- Claim C2 (amended), witness at the spec's scenario. -/
theorem settlement_amended_witness :
    exCompleted1.wallets "p1"
      = (createMatch exAutoState "m1" "p1" "p2" 10).1.wallets "p1" + 16
    ∧ exCompleted2.wallets "p1"
      = (createMatch exAutoState "m1" "p1" "p2" 10).1.wallets "p1" + 32 :=
  ⟨(settlement_amended (createMatch exAutoState "m1" "p1" "p2" 10).1 "m1" "p1"
      5 6 { id := "m1", player1 := "p1", player2 := "p2", betAmount := 10,
            winner := none, status := AMatchStatus.pending }
      (by decide) (by decide)).1,
   (settlement_amended (createMatch exAutoState "m1" "p1" "p2" 10).1 "m1" "p1"
      5 6 { id := "m1", player1 := "p1", player2 := "p2", betAmount := 10,
            winner := none, status := AMatchStatus.pending }
      (by decide) (by decide)).2.1⟩

/-! ## Claim C3 — insufficient funds on createMatch -/

/-- Claim C3, counterexample: with `p1`'s balance at 5, `createMatch` with
`betAmount = 10` still creates the match AND still deducts the bet from the
solvent peer `p2`, refuting "no match is created" and "neither player's
balance changes" (the source also has no error return: it always returns the
new match id). -/
theorem insufficientFunds_counterexample :
    (createMatch exPoorState "m1" "p1" "p2" 10).1.matchesMap "m1" ≠ none
    ∧ (createMatch exPoorState "m1" "p1" "p2" 10).1.wallets "p2"
        ≠ exPoorState.wallets "p2" := by decide

/-- Claim C3 (amended): when a player's balance is below `betAmount`,
`createMatch` nevertheless creates and stores the match and returns its id;
the underfunded player's deduction is silently skipped (balance unchanged)
while a solvent peer is still debited, and no transaction of any status is
recorded (the transaction log is untouched — this last part of the original
claim does hold). -/
theorem insufficientFunds_amended :
    ∀ (s : AutomationState) (matchId p1 p2 : String) (bet : Int),
    s.wallets p1 < bet → p1 ≠ p2 → bet ≤ s.wallets p2 →
    (createMatch s matchId p1 p2 bet).2 = matchId
    ∧ (createMatch s matchId p1 p2 bet).1.matchesMap matchId
        = some { id := matchId, player1 := p1, player2 := p2
                 betAmount := bet, winner := none
                 status := AMatchStatus.pending }
    ∧ (createMatch s matchId p1 p2 bet).1.wallets p1 = s.wallets p1
    ∧ (createMatch s matchId p1 p2 bet).1.wallets p2 = s.wallets p2 - bet
    ∧ (createMatch s matchId p1 p2 bet).1.transactions = s.transactions := by
  intro s matchId p1 p2 bet h1 h12 h2
  have h1n : ¬ (bet ≤ s.wallets p1) := not_le.mpr h1
  refine ⟨rfl, ?_, ?_, ?_, ?_⟩
  · simp [createMatch, deductFromWallet, getWalletBalance, strUpdate, h1n, h2]
  · simp [createMatch, deductFromWallet, getWalletBalance, strUpdate, h1n, h2,
      h12, Ne.symm h12]
  · simp [createMatch, deductFromWallet, getWalletBalance, strUpdate, h1n, h2]
  · simp [createMatch, deductFromWallet, getWalletBalance, strUpdate, h1n, h2]

/-- Claim C3 (amended), witness at the spec's balance-5 scenario. -/
theorem insufficientFunds_amended_witness :
    (createMatch exPoorState "m1" "p1" "p2" 10).1.wallets "p1"
        = exPoorState.wallets "p1"
    ∧ (createMatch exPoorState "m1" "p1" "p2" 10).1.wallets "p2"
        = exPoorState.wallets "p2" - 10 :=
  ⟨(insufficientFunds_amended exPoorState "m1" "p1" "p2" 10 (by decide)
      (by decide) (by decide)).2.2.1,
   (insufficientFunds_amended exPoorState "m1" "p1" "p2" 10 (by decide)
      (by decide) (by decide)).2.2.2.1⟩

/-! ## Claim C9 — completeMatch pays an arbitrary winnerId -/

/-- Claim C9: for every `matchId` present in the match map and EVERY
`winnerId` string — the statement quantifies over all strings, with no
hypothesis relating `winnerId` to `md.player1`/`md.player2` — `completeMatch`
credits `winnerId`'s wallet with the fixed payout 16 and the `'developer'`
wallet with 4, and records `winnerId` as the match winner.  The payout is
independent of `md.betAmount` (the conclusion mentions only the literals 16
and 4).  The `winnerId ≠ "developer"` hypothesis only separates the two
credited wallets so their deltas can be stated independently. -/
theorem completeMatch_arbitrary_winner :
    ∀ (s : AutomationState) (matchId winnerId : String) (now : Nat)
      (md : MatchData),
    s.matchesMap matchId = some md → winnerId ≠ "developer" →
    (completeMatch s matchId winnerId now).wallets winnerId
        = s.wallets winnerId + 16
    ∧ (completeMatch s matchId winnerId now).wallets "developer"
        = s.wallets "developer" + 4
    ∧ (completeMatch s matchId winnerId now).matchesMap matchId
        = some { md with winner := some winnerId
                         status := AMatchStatus.completed } := by
  intro s matchId winnerId now md h hw
  obtain ⟨h1, h2, _, h4, _⟩ := completeMatch_effect s md matchId winnerId now h hw
  exact ⟨h1, h2, h4⟩

/-- Claim C9, witness: a match between `p1` and `p2` (bet 50) settled in
favour of `"mallory"`, a string that is neither player; mallory is credited
16 out of nothing. -/
theorem completeMatch_arbitrary_winner_witness :
    (completeMatch (createMatch exAutoState "m1" "p1" "p2" 50).1 "m1"
        "mallory" 7).wallets "mallory"
      = (createMatch exAutoState "m1" "p1" "p2" 50).1.wallets "mallory" + 16
    ∧ (completeMatch (createMatch exAutoState "m1" "p1" "p2" 50).1 "m1"
        "mallory" 7).wallets "developer"
      = (createMatch exAutoState "m1" "p1" "p2" 50).1.wallets "developer"
        + 4 :=
  ⟨(completeMatch_arbitrary_winner (createMatch exAutoState "m1" "p1" "p2"
      50).1 "m1" "mallory" 7
      { id := "m1", player1 := "p1", player2 := "p2", betAmount := 50,
        winner := none, status := AMatchStatus.pending }
      (by decide) (by decide)).1,
   (completeMatch_arbitrary_winner (createMatch exAutoState "m1" "p1" "p2"
      50).1 "m1" "mallory" 7
      { id := "m1", player1 := "p1", player2 := "p2", betAmount := 50,
        winner := none, status := AMatchStatus.pending }
      (by decide) (by decide)).2.1⟩

/-! ## Claim C10 — createMatch logs no transaction -/

/-- Claim C10: `createMatch` deducts the bet from both (solvent) players but
appends NOTHING to the transaction log; the log gains entries for a match
only from `completeMatch` (exactly one `win` and one `fee` entry); and,
starting from any state whose log holds no `bet`-typed entry, after a
create/complete cycle `getTransactionHistory` still contains no `bet` entry
for any user. -/
theorem createMatch_logs_nothing :
    ∀ (s : AutomationState) (matchId p1 p2 winnerId userId : String)
      (bet : Int) (now : Nat),
    p1 ≠ p2 → bet ≤ s.wallets p1 → bet ≤ s.wallets p2 →
    (∀ t ∈ s.transactions, t.type ≠ ATxType.bet) →
    (createMatch s matchId p1 p2 bet).1.transactions = s.transactions
    ∧ (createMatch s matchId p1 p2 bet).1.wallets p1 = s.wallets p1 - bet
    ∧ (createMatch s matchId p1 p2 bet).1.wallets p2 = s.wallets p2 - bet
    ∧ (completeMatch (createMatch s matchId p1 p2 bet).1 matchId winnerId
          now).transactions
        = s.transactions
          ++ [{ id := "win_" ++ matchId, userId := winnerId,
                type := ATxType.win, amount := 16,
                status := ATxStatus.completed, timestamp := now },
              { id := "fee_" ++ matchId, userId := "developer",
                type := ATxType.fee, amount := 4,
                status := ATxStatus.completed, timestamp := now }]
    ∧ (∀ t ∈ getTransactionHistory
          (completeMatch (createMatch s matchId p1 p2 bet).1 matchId winnerId
            now) userId,
        t.type ≠ ATxType.bet) := by
  intro s matchId p1 p2 winnerId userId bet now h12 h1 h2 hbetfree
  obtain ⟨hc1, hc2, hc3, hc4, hc5⟩ :=
    createMatch_effect s matchId p1 p2 bet h12 h1 h2
  have htx : (completeMatch (createMatch s matchId p1 p2 bet).1 matchId
      winnerId now).transactions
      = s.transactions
        ++ [{ id := "win_" ++ matchId, userId := winnerId,
              type := ATxType.win, amount := 16,
              status := ATxStatus.completed, timestamp := now },
            { id := "fee_" ++ matchId, userId := "developer",
              type := ATxType.fee, amount := 4,
              status := ATxStatus.completed, timestamp := now }] := by
    simp only [completeMatch, hc4, creditToWallet, logTransaction,
      getWalletBalance]
    rw [hc5]
    simp
  refine ⟨hc5, hc1, hc2, htx, ?_⟩
  intro t ht
  unfold getTransactionHistory at ht
  rw [List.mem_insertionSort] at ht
  have hmem := List.mem_of_mem_filter ht
  rw [htx] at hmem
  rcases List.mem_append.mp hmem with hin | hnew
  · exact hbetfree t hin
  · simp only [List.mem_cons, List.mem_singleton, List.not_mem_nil,
      or_false] at hnew
    rcases hnew with h | h <;> subst h <;> simp

/-- Claim C10, witness: a full create/complete cycle from the funded example
state. -/
theorem createMatch_logs_nothing_witness :
    (createMatch exAutoState "m1" "p1" "p2" 10).1.transactions
        = exAutoState.transactions
    ∧ (∀ t ∈ getTransactionHistory exCompleted1 "p1",
        t.type ≠ ATxType.bet) :=
  ⟨(createMatch_logs_nothing exAutoState "m1" "p1" "p2" "p1" "p1" 10 5
      (by decide) (by decide) (by decide) (by simp [exAutoState])).1,
   (createMatch_logs_nothing exAutoState "m1" "p1" "p2" "p1" "p1" 10 5
      (by decide) (by decide) (by decide) (by simp [exAutoState])).2.2.2.2⟩

/-! ## Claim C5 — idempotent posting -/

/-- Claim C5, counterexample: processing the same deposit transaction id a
second time (a simulated retry, gateway succeeding both times) credits the
balance again: alice holds 200 after the replay instead of the 100 a single
posting produces, so replaying a resolved transaction id is NOT a no-op. -/
theorem idempotentPosting_counterexample :
    exDepTwice.playerBalances "alice" ≠ exDepOnce.playerBalances "alice" := by
  decide

/-- Claim C5 (amended): deposit posting is not idempotent.
`processDepositTransaction` / `approveDeposit` never consult the transactions
map for an already-resolved id: re-processing a valid deposit (gateway
succeeding) credits the player again, leaving the balance larger by
`2 * amount` instead of `amount`. -/
theorem idempotentPosting_amended :
    ∀ (cfg : WalletConfig) (s : WPState) (d : WTransaction) (n1 n2 : Nat),
    cfg.minDeposit ≤ d.amount → d.amount ≤ cfg.maxDeposit →
    (processDepositTransaction cfg
        (processDepositTransaction cfg s d true n1) d true n2).playerBalances
        d.playerId
      = s.playerBalances d.playerId + 2 * d.amount
    ∧ (processDepositTransaction cfg s d true n1).playerBalances d.playerId
      = s.playerBalances d.playerId + d.amount := by
  intro cfg s d n1 n2 hmin hmax
  have h1 : ¬ (d.amount < cfg.minDeposit) := not_lt.mpr hmin
  have h2 : ¬ (d.amount > cfg.maxDeposit) := not_lt.mpr hmax
  constructor
  · simp [processDepositTransaction, approveDeposit, strUpdate, h1, h2]
    ring
  · simp [processDepositTransaction, approveDeposit, strUpdate, h1, h2]

/-- Claim C5 (amended), witness: the 100-rupee deposit replayed once. -/
theorem idempotentPosting_amended_witness :
    exDepTwice.playerBalances "alice"
        = initialWPState.playerBalances "alice" + 2 * 100
    ∧ exDepOnce.playerBalances "alice"
        = initialWPState.playerBalances "alice" + 100 :=
  ⟨(idempotentPosting_amended walletConfig initialWPState exDeposit 1 2
      (by decide) (by decide)).1,
   (idempotentPosting_amended walletConfig initialWPState exDeposit 1 2
      (by decide) (by decide)).2⟩

/-! ## Claim C7 — stop() and outstanding timers -/

/-- Claim C7, counterexample: a withdrawal placed in review schedules a
one-shot auto-approval `setTimeout` that `stop()` cannot cancel (it is not in
the `intervals` registry `stop()` clears).  Concretely: after `stop()` the
interval registry is empty and the review timeout is still outstanding, and
firing it mutates alice's balance (600 → 1200) — a scheduled task of the
processor mutating state after `stop()` returned. -/
theorem stopCancels_counterexample :
    "w1" ∈ exStopped.reviewTimeouts
    ∧ exStopped.intervals = []
    ∧ exFiredAfterStop.playerBalances "alice"
        ≠ exStopped.playerBalances "alice" := by
  decide

/-- Claim C7 (amended): `stop()` deterministically cancels every task
registered in the `intervals` map (the map is cleared), but the one-shot
review auto-approval timeouts created by `queueForManualReview` are never
registered there, survive `stop()`, and when they fire on a
still-in-review withdrawal they apply `approveWithdrawal` and mutate the
player's balance after `stop()` has returned. -/
theorem stopCancels_amended :
    ∀ (s : WPState) (id : String) (w : WTransaction) (now : Nat),
    (wpStop s).intervals = []
    ∧ (wpStop s).isRunning = false
    ∧ (wpStop s).reviewTimeouts = s.reviewTimeouts
    ∧ (id ∈ s.reviewTimeouts → s.transactions id = some w →
        w.status = WTxStatus.review →
        (fireReviewTimeout (wpStop s) id now).playerBalances w.playerId
          = s.playerBalances w.playerId + w.amount) := by
  intro s id w now
  refine ⟨rfl, rfl, rfl, ?_⟩
  intro hmem htx hrev
  simp only [fireReviewTimeout, wpStop]
  rw [if_pos hmem]
  simp only [htx]
  rw [if_pos hrev]
  simp [approveWithdrawal, strUpdate]

/-- Claim C7 (amended), witness: the concrete review scenario. -/
theorem stopCancels_amended_witness :
    ("w1" ∈ exReviewState.reviewTimeouts)
    ∧ (fireReviewTimeout (wpStop exReviewState) "w1" 10).playerBalances
        "alice"
      = exReviewState.playerBalances "alice" + 600 :=
  ⟨by decide,
   (stopCancels_amended exReviewState "w1" exReviewTx 10).2.2.2
     (by decide) (by decide) (by decide)⟩

/-! ## Claim C6 — priority-ordered rule dispatch -/

/-- Claim C6: for every event and every rule registry, the rule list
`processEvent` executes — the registry filtered by event type (or wildcard)
and predicate, then stable-sorted by `b.priority - a.priority` — is
(a) pairwise ordered by `dispLE` (descending priority, ties by earlier
registration index), and (b) a permutation of exactly the matching rules with
their registration indices.  Since `forEach` runs the sorted array
sequentially, the list order is the execution order: a matching rule of
priority 100 completes its action before any matching rule of priority 50
begins. -/
theorem priorityOrdering :
    ∀ (rules : List EventRule) (e : GameEvent),
    List.Sorted dispLE (matchingRules rules e)
    ∧ (matchingRules rules e).Perm
        ((rules.enum).filter (fun p => ruleApplies p.2 e)) := by
  intro rules e
  exact ⟨List.sorted_insertionSort dispLE _, List.perm_insertionSort dispLE _⟩

/-! ## Claim C8 — cancelled matches are refunded once per sweep -/

/-- The second component of `processCancelledMatch` always carries the
refund-extended transaction list, whether or not the match was evicted. -/
theorem processCancelledMatch_snd (cfg : GPConfig) (m : GMatch)
    (txs : List GTransaction) (now : Nat) :
    (processCancelledMatch cfg m txs now).2
      = txs ++ m.players.map (fun p => refundTx cfg m p now) := by
  unfold processCancelledMatch processAutomaticRefund
  cases m.endTime with
  | none => rfl
  | some e =>
    dsimp only
    split <;> rfl

/-- Claim C8: a main-loop sweep over a match in `cancelled` status (still
within the 30-minute retention window) credits `betAmount` to EVERY player of
the match and appends one new completed refund transaction per player; the
surviving match is still `cancelled` with the same `endTime`, so the next
sweep refunds all players AGAIN (balances `+2×betAmount`, transaction list
grown by another `players.length` entries) — once per sweep, not once per
match. -/
theorem cancelledRefund_per_sweep :
    ∀ (cfg : GPConfig) (m : GMatch) (txs : List GTransaction)
      (n1 n2 e : Nat),
    m.status = GMatchStatus.cancelled → m.endTime = some e →
    n1 - e ≤ 1800000 →
    ∃ m1,
      processCancelledMatch cfg m txs n1
          = (some m1, txs ++ m.players.map (fun p => refundTx cfg m p n1))
      ∧ m1.players.map (fun p => p.walletBalance)
          = m.players.map (fun p => p.walletBalance + cfg.betAmount)
      ∧ (∀ t ∈ m.players.map (fun p => refundTx cfg m p n1),
          t.type = GTxType.refund ∧ t.status = GTxStatus.completed ∧
            t.matchId = m.id ∧ t.amount = cfg.betAmount)
      ∧ m1.status = GMatchStatus.cancelled
      ∧ m1.endTime = some e
      ∧ (processCancelledMatch cfg m1
            (txs ++ m.players.map (fun p => refundTx cfg m p n1)) n2).2.length
          = txs.length + 2 * m.players.length
      ∧ (processAutomaticRefund cfg m1
            (txs ++ m.players.map (fun p => refundTx cfg m p n1))
            n2).1.players.map (fun p => p.walletBalance)
          = m.players.map
              (fun p => p.walletBalance + cfg.betAmount + cfg.betAmount) := by
  intro cfg m txs n1 n2 e hst het hn1
  refine ⟨(processAutomaticRefund cfg m txs n1).1, ?_, ?_, ?_, ?_, ?_, ?_, ?_⟩
  · simp [processCancelledMatch, processAutomaticRefund, het, not_lt.mpr hn1]
  · simp [processAutomaticRefund, List.map_map]
  · intro t ht
    rcases List.mem_map.mp ht with ⟨p, _, hp⟩
    subst hp
    exact ⟨rfl, rfl, rfl, rfl⟩
  · simp [processAutomaticRefund, hst]
  · simp [processAutomaticRefund, het]
  · rw [processCancelledMatch_snd]
    simp [processAutomaticRefund]
    omega
  · simp [processAutomaticRefund, List.map_map]

/-- Claim C8, witness: the concrete cancelled two-player match swept twice
(both sweeps inside the retention window). -/
theorem cancelledRefund_per_sweep_witness :
    ∃ m1,
      processCancelledMatch gpConfig exCancelledMatch [] 2000
          = (some m1,
             ([] : List GTransaction) ++ exCancelledMatch.players.map
                (fun p => refundTx gpConfig exCancelledMatch p 2000))
      ∧ m1.players.map (fun p => p.walletBalance)
          = exCancelledMatch.players.map
              (fun p => p.walletBalance + gpConfig.betAmount)
      ∧ (∀ t ∈ exCancelledMatch.players.map
            (fun p => refundTx gpConfig exCancelledMatch p 2000),
          t.type = GTxType.refund ∧ t.status = GTxStatus.completed ∧
            t.matchId = exCancelledMatch.id ∧ t.amount = gpConfig.betAmount)
      ∧ m1.status = GMatchStatus.cancelled
      ∧ m1.endTime = some 1000
      ∧ (processCancelledMatch gpConfig m1
            (([] : List GTransaction) ++ exCancelledMatch.players.map
              (fun p => refundTx gpConfig exCancelledMatch p 2000))
            3000).2.length
          = ([] : List GTransaction).length
              + 2 * exCancelledMatch.players.length
      ∧ (processAutomaticRefund gpConfig m1
            (([] : List GTransaction) ++ exCancelledMatch.players.map
              (fun p => refundTx gpConfig exCancelledMatch p 2000))
            3000).1.players.map (fun p => p.walletBalance)
          = exCancelledMatch.players.map
              (fun p => p.walletBalance + gpConfig.betAmount
                + gpConfig.betAmount) :=
  cancelledRefund_per_sweep gpConfig exCancelledMatch [] 2000 3000 1000
    (by decide) (by decide) (by decide)

/-! ## Claim C4 — non-negative balances (invariant development) -/

theorem wpInv_initial (cfg : WalletConfig) : WPInv cfg initialWPState := by
  constructor
  · intro p; simp [initialWPState]
  · intro id w hid
    simp [initialWPState] at hid

theorem wpInv_failTransaction (cfg : WalletConfig) (s : WPState)
    (t : WTransaction) (r : String) (now : Nat) (h : WPInv cfg s) :
    WPInv cfg (failTransaction s t r now) := by
  obtain ⟨hbal, htx⟩ := h
  constructor
  · intro p; exact hbal p
  · intro id w hid hrev
    by_cases he : id = t.id
    · subst he
      rw [failTransaction] at hid
      simp only [strUpdate_same] at hid
      cases hid
      simp at hrev
    · rw [failTransaction] at hid
      simp only [strUpdate_ne _ _ _ _ he] at hid
      exact htx id w hid hrev

theorem wpInv_approveDeposit (cfg : WalletConfig) (s : WPState)
    (d : WTransaction) (now : Nat) (h : WPInv cfg s) (ha : 0 ≤ d.amount) :
    WPInv cfg (approveDeposit s d now) := by
  obtain ⟨hbal, htx⟩ := h
  constructor
  · intro p
    by_cases hp : p = d.playerId
    · subst hp
      simp only [approveDeposit, strUpdate_same]
      have := hbal d.playerId
      omega
    · simp only [approveDeposit, strUpdate_ne _ _ _ _ hp]
      exact hbal p
  · intro id w hid hrev
    by_cases he : id = d.id
    · subst he
      simp only [approveDeposit, strUpdate_same] at hid
      cases hid
      simp at hrev
    · simp only [approveDeposit, strUpdate_ne _ _ _ _ he] at hid
      exact htx id w hid hrev

theorem wpInv_approveWithdrawal (cfg : WalletConfig) (s : WPState)
    (w : WTransaction) (now : Nat) (h : WPInv cfg s) (ha : 0 ≤ w.amount) :
    WPInv cfg (approveWithdrawal s w now) := by
  obtain ⟨hbal, htx⟩ := h
  constructor
  · intro p
    by_cases hp : p = w.playerId
    · subst hp
      simp only [approveWithdrawal, strUpdate_same]
      have := hbal w.playerId
      omega
    · simp only [approveWithdrawal, strUpdate_ne _ _ _ _ hp]
      exact hbal p
  · intro id w1 hid hrev
    by_cases he : id = w.id
    · subst he
      simp only [approveWithdrawal, strUpdate_same] at hid
      cases hid
      simp at hrev
    · simp only [approveWithdrawal, strUpdate_ne _ _ _ _ he] at hid
      exact htx id w1 hid hrev

theorem wpInv_queueForManualReview (cfg : WalletConfig) (s : WPState)
    (w : WTransaction) (h : WPInv cfg s)
    (ha : cfg.minWithdrawal ≤ w.amount) :
    WPInv cfg (queueForManualReview s w) := by
  obtain ⟨hbal, htx⟩ := h
  constructor
  · intro p; exact hbal p
  · intro id w1 hid hrev
    by_cases he : id = w.id
    · subst he
      simp only [queueForManualReview, strUpdate_same] at hid
      cases hid
      exact ha
    · simp only [queueForManualReview, strUpdate_ne _ _ _ _ he] at hid
      exact htx id w1 hid hrev

theorem wpInv_processDepositTransaction (cfg : WalletConfig) (s : WPState)
    (d : WTransaction) (g : Bool) (now : Nat)
    (hcfg : 0 < cfg.minDeposit) (h : WPInv cfg s) :
    WPInv cfg (processDepositTransaction cfg s d g now) := by
  unfold processDepositTransaction
  by_cases hv : d.amount < cfg.minDeposit ∨ d.amount > cfg.maxDeposit
  · rw [if_pos hv]
    exact wpInv_failTransaction cfg s d _ now h
  · rw [if_neg hv]
    push_neg at hv
    have ha : 0 ≤ d.amount := by omega
    cases g
    · simp only [Bool.false_eq_true, if_false]
      exact wpInv_failTransaction cfg s d _ now h
    · simp only [if_true]
      exact wpInv_approveDeposit cfg s d now h ha

theorem wpInv_processWithdrawalTransaction (cfg : WalletConfig) (s : WPState)
    (w : WTransaction) (now : Nat)
    (hcfg : 0 < cfg.minWithdrawal) (h : WPInv cfg s) :
    WPInv cfg (processWithdrawalTransaction cfg s w now) := by
  unfold processWithdrawalTransaction
  by_cases hv : w.amount < cfg.minWithdrawal ∨ w.amount > cfg.maxWithdrawal
  · rw [if_pos hv]
    exact wpInv_failTransaction cfg s w _ now h
  · rw [if_neg hv]
    push_neg at hv
    have ha : 0 ≤ w.amount := by omega
    by_cases hb : s.playerBalances w.playerId < (w.amount.natAbs : Int)
    · rw [if_pos hb]
      exact wpInv_failTransaction cfg s w _ now h
    · rw [if_neg hb]
      by_cases hl : (w.amount.natAbs : Int) ≤ cfg.autoApprovalLimit
      · rw [if_pos hl]
        exact wpInv_approveWithdrawal cfg s w now h ha
      · rw [if_neg hl]
        exact wpInv_queueForManualReview cfg s w h hv.1

theorem wpInv_fireReviewTimeout (cfg : WalletConfig) (s : WPState)
    (id : String) (now : Nat) (hcfg : 0 < cfg.minWithdrawal)
    (h : WPInv cfg s) : WPInv cfg (fireReviewTimeout s id now) := by
  unfold fireReviewTimeout
  by_cases hm : id ∈ s.reviewTimeouts
  · rw [if_pos hm]
    have h1 : WPInv cfg { s with reviewTimeouts := s.reviewTimeouts.erase id } :=
      ⟨h.1, h.2⟩
    cases hw : s.transactions id with
    | none => simpa [hw] using h1
    | some w =>
      simp only [hw]
      by_cases hr : w.status = WTxStatus.review
      · rw [if_pos hr]
        have ha : 0 ≤ w.amount := by
          have := h.2 id w hw hr
          omega
        exact wpInv_approveWithdrawal cfg _ w now h1 ha
      · rw [if_neg hr]
        exact h1
  · rw [if_neg hm]
    exact h

theorem wpInv_runDeposits (cfg : WalletConfig) (hcfg : 0 < cfg.minDeposit) :
    ∀ (l : List (WTransaction × Bool)) (s : WPState) (now : Nat),
    WPInv cfg s → WPInv cfg (runDeposits cfg l s now) := by
  intro l
  induction l with
  | nil => intro s now h; exact h
  | cons p rest ih =>
    intro s now h
    exact ih _ now
      (wpInv_processDepositTransaction cfg s p.1 p.2 now hcfg h)

theorem wpInv_runWithdrawals (cfg : WalletConfig)
    (hcfg : 0 < cfg.minWithdrawal) :
    ∀ (l : List WTransaction) (s : WPState) (now : Nat),
    WPInv cfg s → WPInv cfg (runWithdrawals cfg l s now) := by
  intro l
  induction l with
  | nil => intro s now h; exact h
  | cons w rest ih =>
    intro s now h
    exact ih _ now
      (wpInv_processWithdrawalTransaction cfg s w now hcfg h)

/-- Every reachable state of the wallet processor satisfies the invariant:
balances are non-negative, and review-status transactions carry validated
(positive, in-range) amounts. -/
theorem wpInv_reachable (cfg : WalletConfig) (hd : 0 < cfg.minDeposit)
    (hw : 0 < cfg.minWithdrawal) :
    ∀ s, WPReachable cfg s → WPInv cfg s := by
  intro s h
  induction h with
  | init => exact wpInv_initial cfg
  | enqDeposit id playerId amount ts _ ih => exact ⟨ih.1, ih.2⟩
  | enqWithdrawal id playerId amount ts _ ih => exact ⟨ih.1, ih.2⟩
  | depTick gw now _ ih =>
    exact wpInv_runDeposits cfg hd _ _ now ⟨ih.1, ih.2⟩
  | wdTick now _ ih =>
    exact wpInv_runWithdrawals cfg hw _ _ now ⟨ih.1, ih.2⟩
  | reviewFire id now _ ih => exact wpInv_fireReviewTimeout cfg _ id now hw ih
  | stopStep _ ih => exact ⟨ih.1, ih.2⟩

/-- Claim C4: in every reachable state of the wallet processor every player
balance is non-negative, and the debit paths reject a violating debit before
touching any balance: the bet deduction (`deductFromWallet`) preserves
non-negativity and returns the state completely unchanged when the balance
cannot cover the amount, and a withdrawal whose amount exceeds the balance is
failed with all balances unchanged.  This holds for every configuration with
positive minimum amounts (the source sets both minimums to 10).

How the review path stays safe: amounts that reach `approveWithdrawal` —
immediately or from the delayed review auto-approval — have passed the
source's validation `withdrawal.amount < minWithdrawal`, which compares the
SIGNED amount, so they lie in `[minWithdrawal, maxWithdrawal]` and are
positive; applying them can only increase the balance (a genuine negative
withdrawal amount never survives validation).  The delayed approval itself
performs no re-check, but by the carried invariant no reviewed transaction
can drive a balance negative. -/
theorem noNegativeBalance :
    ∀ (cfg : WalletConfig), 0 < cfg.minDeposit → 0 < cfg.minWithdrawal →
    (∀ s, WPReachable cfg s → ∀ p, 0 ≤ s.playerBalances p)
    ∧ (∀ (a : AutomationState) (u : String) (amt : Int) (p : String),
        (∀ q, 0 ≤ a.wallets q) →
        0 ≤ ((deductFromWallet a u amt).1).wallets p)
    ∧ (∀ (a : AutomationState) (u : String) (amt : Int),
        a.wallets u < amt → deductFromWallet a u amt = (a, false))
    ∧ (∀ (s : WPState) (w : WTransaction) (now : Nat),
        cfg.minWithdrawal ≤ w.amount → w.amount ≤ cfg.maxWithdrawal →
        s.playerBalances w.playerId < (w.amount.natAbs : Int) →
        (processWithdrawalTransaction cfg s w now).playerBalances
          = s.playerBalances) := by
  intro cfg hd hw
  refine ⟨?_, ?_, ?_, ?_⟩
  · intro s hs p
    exact (wpInv_reachable cfg hd hw s hs).1 p
  · intro a u amt p hpos
    unfold deductFromWallet getWalletBalance
    by_cases hc : a.wallets u ≥ amt
    · rw [if_pos hc]
      by_cases hp : p = u
      · subst hp
        simp only [strUpdate_same]
        omega
      · simp only [strUpdate_ne _ _ _ _ hp]
        exact hpos p
    · rw [if_neg hc]
      exact hpos p
  · intro a u amt hlt
    unfold deductFromWallet getWalletBalance
    rw [if_neg (not_le.mpr hlt)]
  · intro s w now hmin hmax hb
    unfold processWithdrawalTransaction
    rw [if_neg (by push_neg; omega), if_pos hb]
    rfl

/-- Claim C4, witness: a reachable state (a 50-rupee deposit enqueued and
processed from the initial state) has a non-negative balance; a bet deduction
exceeding a wallet is rejected with the state unchanged. -/
theorem noNegativeBalance_witness :
    (0 ≤ (processAutomaticDeposits walletConfig
        (enqueueDeposit initialWPState "d1" "alice" 50 0)
        (fun _ => true) 1).playerBalances "alice")
    ∧ deductFromWallet exPoorState "p1" 10 = (exPoorState, false) :=
  ⟨(noNegativeBalance walletConfig (by decide) (by decide)).1 _
      (WPReachable.depTick (fun _ => true) 1
        (WPReachable.enqDeposit "d1" "alice" 50 0 WPReachable.init)) "alice",
   (noNegativeBalance walletConfig (by decide) (by decide)).2.2.1
      exPoorState "p1" 10 (by decide)⟩
